import Mathlib

/-!
Verification development for the TradingDataServer repository (src/main.py).

The Python module is shallowly embedded below.  JSON scalar values that can
occur in a row of `datatable.data` are modelled by `Value` (floats are carried
as exact rationals: the code only moves them around, never computes with
them).  Calendar dates are modelled by a `Date` structure; the strict format
`YYYY-MM-DD` accepted by `datetime.strptime` and `pd.to_datetime` is modelled
by `parseDate`.  Raised exceptions are modelled with `Except`.  The filesystem
seen by the loaders is modelled as a map from paths to optional file contents,
and `os.listdir` as an explicit listing argument.
-/

namespace TDS

/-- A JSON scalar value as it appears in a row array of `datatable.data`. -/
inductive Value where
  | null
  | str (s : String)
  | int (n : Int)
  | float (q : Rat)
deriving DecidableEq, Repr

/-- A calendar date, no time component. -/
structure Date where
  year : Nat
  month : Nat
  day : Nat
deriving DecidableEq, Repr

/-- Lexicographic order on dates, as a Boolean. -/
def Date.leb (a b : Date) : Bool :=
  if a.year ≠ b.year then decide (a.year < b.year)
  else if a.month ≠ b.month then decide (a.month < b.month)
  else decide (a.day ≤ b.day)

/-- Split a list of characters on a separator character. -/
def splitOnChar (sep : Char) : List Char → List (List Char)
  | [] => [[]]
  | c :: rest =>
    let r := splitOnChar sep rest
    if c = sep then [] :: r
    else
      match r with
      | [] => [[c]]
      | g :: gs => (c :: g) :: gs

/-- Numeric value of a list of decimal digit characters. -/
def digitsVal (l : List Char) : Nat :=
  l.foldl (fun n c => n * 10 + (c.toNat - 48)) 0

/-- Gregorian leap-year test. -/
def isLeap (y : Nat) : Bool :=
  y % 4 = 0 && (y % 100 ≠ 0 || y % 400 = 0)

/-- Number of days in a month of a given year. -/
def daysInMonth (y m : Nat) : Nat :=
  if m = 2 then (if isLeap y then 29 else 28)
  else if m = 4 || m = 6 || m = 9 || m = 11 then 30
  else 31

/-- Model of parsing a string against the fixed format `%Y-%m-%d`
(`datetime.strptime` in the handler, `pd.to_datetime` in the filter):
three dash-separated digit groups forming a valid calendar date. -/
def parseDate (s : String) : Option Date :=
  match splitOnChar '-' s.data with
  | [ys, ms, ds] =>
    if (!ys.isEmpty) && ys.all Char.isDigit && decide (ys.length ≤ 4)
        && (!ms.isEmpty) && ms.all Char.isDigit && decide (ms.length ≤ 2)
        && (!ds.isEmpty) && ds.all Char.isDigit && decide (ds.length ≤ 2) then
      let y := digitsVal ys
      let m := digitsVal ms
      let d := digitsVal ds
      if 1 ≤ m && m ≤ 12 && 1 ≤ d && d ≤ daysInMonth y m then
        some ⟨y, m, d⟩
      else none
    else none
  | _ => none

/-- Model of `pd.to_datetime(v, format=%Y-%m-%d, errors=coerce)` at line 33:
a parse failure or a non-string value coerces to `NaT`, modelled as `none`. -/
def dateCoerce (v : Value) : Option Date :=
  match v with
  | .str s => parseDate s
  | _ => none

/-- Model of the string accepted by the Python `int` builtin: an optional
minus sign followed by decimal digits. -/
def strToIntOpt (s : String) : Option Int :=
  match s.data with
  | [] => none
  | c :: rest =>
    if c = '-' then
      if (!rest.isEmpty) && rest.all Char.isDigit then
        some (-(digitsVal rest : Int))
      else none
    else if (c :: rest).all Char.isDigit then
      some ((digitsVal (c :: rest) : Int))
    else none

/-- Model of the string accepted by the Python `float` builtin: an optional
minus sign, then digits with an optional decimal point. -/
def strToRatOpt (s : String) : Option Rat :=
  let core : List Char → Option Rat := fun l =>
    match splitOnChar '.' l with
    | [a] =>
      if (!a.isEmpty) && a.all Char.isDigit then some ((digitsVal a : Rat))
      else none
    | [a, b] =>
      if a.all Char.isDigit && b.all Char.isDigit && ((!a.isEmpty) || (!b.isEmpty)) then
        some ((digitsVal a : Rat) + (digitsVal b : Rat) / ((10 : Rat) ^ b.length))
      else none
    | _ => none
  match s.data with
  | [] => none
  | c :: rest => if c = '-' then (core rest).map (fun q => -q) else core s.data

/-- Decimal rendering of a rational, used only to stringify float values. -/
def ratStr (q : Rat) : String :=
  toString q.num ++ "/" ++ toString q.den

/-- Model of the Python `str` builtin on a row value; `str(None)` is the
string `None`. -/
def pyStr (v : Value) : String :=
  match v with
  | .null => "None"
  | .str s => s
  | .int n => toString n
  | .float q => ratStr q

/-- Model of the Python `int` builtin on a row value: ints pass through,
floats truncate toward zero, numeric strings parse, anything else raises
`ValueError`.  The `null` case is unreachable in `from_array` (guarded by
`is not None`). -/
def pyInt (v : Value) : Except String Int :=
  match v with
  | .int n => .ok n
  | .float q => .ok (Int.tdiv q.num (q.den : Int))
  | .str s =>
    match strToIntOpt s with
    | some n => .ok n
    | none => .error ("invalid literal for int() with base 10: " ++ s)
  | .null => .error "int() argument is None"

/-- Model of the Python `float` builtin on a row value.  The `null` case is
unreachable in `from_array` (guarded by `is not None`). -/
def pyFloat (v : Value) : Except String Rat :=
  match v with
  | .int n => .ok ((n : Rat))
  | .float q => .ok q
  | .str s =>
    match strToRatOpt s with
    | some q => .ok q
    | none => .error ("could not convert string to float: " ++ s)
  | .null => .error "float() argument is None"

/-- One trade record, fields in the fixed column order of `main.py`. -/
structure Record where
  symbol : Option String
  date : Option Date
  hour : Option Int
  openbid : Option Rat
  highbid : Option Rat
  lowbid : Option Rat
  closebid : Option Rat
  openask : Option Rat
  highask : Option Rat
  lowask : Option Rat
  closeask : Option Rat
  totalticks : Option Int
deriving DecidableEq, Repr

/-- Embedding of the guarded conversion pattern used for fields 2 to 11 of
`from_array`: `conv(arr[i]) if len(arr) > i and arr[i] is not None else None`. -/
def convOpt (conv : Value → Except String α) (arr : List Value) (i : Nat) :
    Except String (Option α) :=
  if h : i < arr.length then
    if arr.get ⟨i, h⟩ = .null then .ok none else (conv (arr.get ⟨i, h⟩)).map some
  else .ok none

/-- The body of the `try` block of `from_array` (lines 30 to 44): the field
conversions for indices 2 to 11 are evaluated in order and the first raised
`ValueError` aborts; index 0 is stringified (total) and index 1 is coerced to
a date or `NaT` (total). -/
def from_arrayGo (arr : List Value) : Except String Record :=
  match convOpt pyInt arr 2 with
  | .error e => .error e
  | .ok hour =>
  match convOpt pyFloat arr 3 with
  | .error e => .error e
  | .ok openbid =>
  match convOpt pyFloat arr 4 with
  | .error e => .error e
  | .ok highbid =>
  match convOpt pyFloat arr 5 with
  | .error e => .error e
  | .ok lowbid =>
  match convOpt pyFloat arr 6 with
  | .error e => .error e
  | .ok closebid =>
  match convOpt pyFloat arr 7 with
  | .error e => .error e
  | .ok openask =>
  match convOpt pyFloat arr 8 with
  | .error e => .error e
  | .ok highask =>
  match convOpt pyFloat arr 9 with
  | .error e => .error e
  | .ok lowask =>
  match convOpt pyFloat arr 10 with
  | .error e => .error e
  | .ok closeask =>
  match convOpt pyInt arr 11 with
  | .error e => .error e
  | .ok totalticks =>
    .ok
      { symbol := if h : 0 < arr.length then some (pyStr (arr.get ⟨0, h⟩)) else none
        date := if h : 1 < arr.length then dateCoerce (arr.get ⟨1, h⟩) else none
        hour := hour
        openbid := openbid
        highbid := highbid
        lowbid := lowbid
        closebid := closebid
        openask := openask
        highask := highask
        lowask := lowask
        closeask := closeask
        totalticks := totalticks }

/-- Embedding of `from_array` (lines 12 to 46): the lenient record parser.
A caught `ValueError` is re-raised with the wrapping message of line 46. -/
def from_array (arr : List Value) : Except String Record :=
  match from_arrayGo arr with
  | .ok r => .ok r
  | .error e => .error ("Error converting array to Trade: " ++ e)

/-- The fixed column schema of lines 63 to 66. -/
def tradeColumns : List String :=
  ["symbol", "date", "hour", "openbid", "highbid", "lowbid",
   "closebid", "openask", "highask", "lowask", "closeask", "totalticks"]

/-- A pandas DataFrame as used by this module: a column schema plus an
ordered sequence of records.  `pd.DataFrame()` is `⟨[], []⟩`: empty with no
columns. -/
structure Table where
  cols : List String
  rows : List Record
deriving DecidableEq, Repr

/-- What a path can hold, as far as `load_trades_from_file` observes it:
text that `json.load` rejects, a JSON document without the nested
`datatable.data` array, or a document with that array of row arrays. -/
inductive FileContent where
  | invalidJson
  | noDatatable
  | datatable (rows : List (List Value))
deriving DecidableEq, Repr

/-- The exceptions `load_trades_from_file` can raise. -/
inductive LoadError where
  | fileNotFound (path : String)
  | jsonError
  | keyError
  | rowError (msg : String)
deriving DecidableEq, Repr

/-- The list comprehension of line 60: each row through `from_array`, the
first raised error aborting the whole file. -/
def mapFromArray : List (List Value) → Except String (List Record)
  | [] => .ok []
  | row :: rest =>
    match from_array row with
    | .error e => .error e
    | .ok r => (mapFromArray rest).map (fun l => r :: l)

/-- Embedding of `load_trades_from_file` (lines 50 to 68).  The filesystem is
a map from paths to optional contents; `os.path.exists` is `(fs path).isSome`. -/
def load_trades_from_file (fs : String → Option FileContent) (file_path : String) :
    Except LoadError Table :=
  match fs file_path with
  | none => .error (.fileNotFound file_path)
  | some .invalidJson => .error .jsonError
  | some .noDatatable => .error .keyError
  | some (.datatable rows) =>
    match mapFromArray rows with
    | .error e => .error (.rowError e)
    | .ok recs => .ok ⟨tradeColumns, recs⟩

/-- Does the string end with the given suffix. -/
def strEndsWith (s suf : String) : Bool :=
  suf.data == s.data.drop (s.data.length - suf.data.length)

/-- Embedding of `pd.concat([a, b], ignore_index=True)` as used at line 86:
both operands there share the fixed schema or the accumulator is the fresh
column-less `pd.DataFrame()`, so the united schema is the first nonempty one
and the rows are appended. -/
def concatTables (a b : Table) : Table :=
  ⟨if a.cols.isEmpty then b.cols else a.cols, a.rows ++ b.rows⟩

/-- One iteration of the loop of lines 79 to 88: entries without the `.json`
suffix are skipped, a file that loads is concatenated, a file whose load
raises is logged and skipped. -/
def loadStep (fs : String → Option FileContent) (directory_path : String)
    (all_trades : Table) (filename : String) : Table :=
  if strEndsWith filename ".json" then
    match load_trades_from_file fs (directory_path ++ "/" ++ filename) with
    | .ok trades_df => concatTables all_trades trades_df
    | .error _ => all_trades
  else all_trades

/-- Embedding of `load_all_trades` (lines 72 to 103).  `os.listdir` is the
explicit `listing` argument (enumeration order as given); the print
statements are observability only and are not modelled. -/
def load_all_trades (fs : String → Option FileContent) (directory_path : String)
    (listing : List String) : Table :=
  listing.foldl (loadStep fs directory_path) ⟨[], []⟩

/-- The exceptions `filter_trades` can raise: `pd.to_datetime` on a bad date
string, or a column lookup on a missing column. -/
inductive FilterError where
  | dateParseError (s : String)
  | keyError (col : String)
deriving DecidableEq, Repr

/-- Embedding of `filter_trades` (lines 111 to 120).  Both bounds are parsed
strictly (line 112 to 113 raise on failure); `trades[date]` at line 115
raises `KeyError` when the column is absent; a `NaT` date compares false on
both bounds; `if symbol:` is true exactly for a supplied nonempty string, and
the symbol comparison at line 118 needs the symbol column. -/
def filter_trades (trades : Table) (start_date end_date : String)
    (symbol : Option String) : Except FilterError Table :=
  match parseDate start_date with
  | none => .error (.dateParseError start_date)
  | some sd =>
  match parseDate end_date with
  | none => .error (.dateParseError end_date)
  | some ed =>
  if "date" ∈ trades.cols then
    let dateFiltered := trades.rows.filter (fun r =>
      match r.date with
      | some d => Date.leb sd d && Date.leb d ed
      | none => false)
    match symbol with
    | none => .ok ⟨trades.cols, dateFiltered⟩
    | some s =>
      if s = "" then .ok ⟨trades.cols, dateFiltered⟩
      else if "symbol" ∈ trades.cols then
        .ok ⟨trades.cols, dateFiltered.filter (fun r => r.symbol == some s)⟩
      else .error (.keyError "symbol")
  else .error (.keyError "date")

/-- The hardcoded secret of line 126. -/
def API_KEY : String := "Ee-osjmRSwyXkPA3QBFe"

/-- Outcome of one request to the handler: an `HTTPException` raised with a
status and detail, a 200 payload of serialized records, or an exception that
escapes the handler uncaught (the handler has no try block around the filter
call). -/
inductive HandlerResult where
  | httpError (status : Nat) (detail : String)
  | ok (records : List Record)
  | unhandled (e : FilterError)
deriving DecidableEq, Repr

/-- How the handler body turns the filter call outcome into a result: a
returned table is serialized with `to_dict(orient=records)`; a raised
exception propagates out of the handler uncaught. -/
def filterToResponse : Except FilterError Table → HandlerResult
  | .ok t => .ok t.rows
  | .error e => .unhandled e

/-- Embedding of the `get_trades` handler (lines 123 to 140): API key check,
then date format validation of both parameters (one shared 400 message), then
the filter call. -/
def get_trades (trades_df : Table) (startDate endDate : String)
    (symbol : Option String) (api_key : Option String) : HandlerResult :=
  if api_key ≠ some API_KEY then
    .httpError 403 "Invalid API key"
  else if (parseDate startDate).isNone || (parseDate endDate).isNone then
    .httpError 400 "Invalid date format. Expected \x27YYYY-MM-DD\x27"
  else
    filterToResponse (filter_trades trades_df startDate endDate symbol)

/-- Process state: the module-level `TRADES_DF` built once at startup. -/
structure ServerState where
  trades_df : Table
deriving DecidableEq

/-- The handler as a state transformer: the body of `get_trades` only reads
the module-level `TRADES_DF` and assigns no global, so each request maps the
process state to itself together with a response. -/
def get_trades_step (st : ServerState) (startDate endDate : String)
    (symbol : Option String) (api_key : Option String) : ServerState × HandlerResult :=
  (st, get_trades st.trades_df startDate endDate symbol api_key)

/-- True exactly on an error result. -/
def isErr : Except ε α → Bool
  | .error _ => true
  | .ok _ => false

/-- True exactly on a raised `FileNotFoundError`. -/
def isFileNotFound : Except LoadError Table → Bool
  | .error (.fileNotFound _) => true
  | _ => false

/-- True exactly on a 500 response. -/
def isHttp500 : HandlerResult → Bool
  | .httpError 500 _ => true
  | _ => false

/-- Whether the type conversion applied at row index `i` (an `int` call at
indices 2 and 11, a `float` call at indices 3 to 10) fails on value `v`. -/
def convFailsAt (i : Nat) (v : Value) : Bool :=
  if i = 2 || i = 11 then isErr (pyInt v) else isErr (pyFloat v)

/-- Whether field number `i` of a record (in the fixed column order) is null. -/
def fieldNone (r : Record) : Nat → Bool
  | 0 => r.symbol.isNone
  | 1 => r.date.isNone
  | 2 => r.hour.isNone
  | 3 => r.openbid.isNone
  | 4 => r.highbid.isNone
  | 5 => r.lowbid.isNone
  | 6 => r.closebid.isNone
  | 7 => r.openask.isNone
  | 8 => r.highask.isNone
  | 9 => r.lowask.isNone
  | 10 => r.closeask.isNone
  | 11 => r.totalticks.isNone
  | _ => true

/-- The record predicate stated by the specification of the Query Filter:
the date lies in the closed interval and, when a nonempty symbol is supplied,
the symbol matches. -/
def specFilterPred (sd ed : Date) (symbol : Option String) (r : Record) : Bool :=
  (match r.date with
   | some d => Date.leb sd d && Date.leb d ed
   | none => false)
  &&
  (match symbol with
   | none => true
   | some s => if s = "" then true else r.symbol == some s)

/-- The seven-element example row of the specification. -/
def row7 : List Value :=
  [.str "EURUSD", .str "2023-01-02", .int 9, .float (11/10), .float (6/5),
   .float 1, .float (23/20)]

/-- The record the example row parses to. -/
def rec7 : Record :=
  ⟨some "EURUSD", some ⟨2023, 1, 2⟩, some 9, some (11/10), some (6/5),
   some 1, some (23/20), none, none, none, none, none⟩

/-- A record produced from a row whose date failed to parse. -/
def recBad : Record :=
  ⟨some "EURUSD", none, none, none, none, none, none, none, none, none, none, none⟩

/-- A record dated 2023-06-01. -/
def recJun : Record :=
  ⟨some "EURUSD", some ⟨2023, 6, 1⟩, none, none, none, none, none, none, none,
   none, none, none⟩

/-- A record with a null date, as the lenient policy can produce. -/
def recNullDate : Record :=
  ⟨some "GBPUSD", none, none, none, none, none, none, none, none, none, none, none⟩

/-- A two-row table holding one null-dated and one dated record. -/
def tNull : Table := ⟨tradeColumns, [recNullDate, recJun]⟩

lemma convOpt_absent (conv : Value → Except String α) (arr : List Value) (i : Nat)
    (h : arr.length ≤ i) : convOpt conv arr i = .ok none := by
  unfold convOpt
  rw [dif_neg (by omega)]

lemma convOpt_null (conv : Value → Except String α) (arr : List Value) (i : Nat)
    (h : i < arr.length) (hv : arr.get ⟨i, h⟩ = .null) :
    convOpt conv arr i = .ok none := by
  unfold convOpt
  rw [dif_pos h, hv, if_pos rfl]

lemma convOpt_error (conv : Value → Except String α) (arr : List Value) (i : Nat) (e : String)
    (h : convOpt conv arr i = .error e) :
    ∃ hi : i < arr.length, arr.get ⟨i, hi⟩ ≠ .null ∧ isErr (conv (arr.get ⟨i, hi⟩)) = true := by
  unfold convOpt at h
  split at h
  · next hi =>
    refine ⟨hi, ?_⟩
    split at h
    · exact Except.noConfusion h
    · next hnn =>
      refine ⟨hnn, ?_⟩
      cases hc : conv (arr.get ⟨i, hi⟩) with
      | error e2 => simp [isErr]
      | ok a => rw [hc] at h; exact Except.noConfusion h
  · exact Except.noConfusion h

lemma errWitness {α : Type} {arr : List Value} (i : Nat) {e : String}
    {conv : Value → Except String α} (h2 : 2 ≤ i) (h11 : i ≤ 11)
    (hconv : ∀ v, convFailsAt i v = isErr (conv v))
    (h : convOpt conv arr i = .error e) :
    ∃ j, ∃ hj : j < arr.length, 2 ≤ j ∧ j ≤ 11 ∧ arr.get ⟨j, hj⟩ ≠ .null ∧
      convFailsAt j (arr.get ⟨j, hj⟩) = true := by
  obtain ⟨hi, hnn, herr⟩ := convOpt_error conv arr i e h
  exact ⟨i, hi, h2, h11, hnn, by rw [hconv]; exact herr⟩

lemma from_arrayGo_ok (arr : List Value) (r : Record) (h : from_arrayGo arr = .ok r) :
    convOpt pyInt arr 2 = .ok r.hour ∧
    convOpt pyFloat arr 3 = .ok r.openbid ∧
    convOpt pyFloat arr 4 = .ok r.highbid ∧
    convOpt pyFloat arr 5 = .ok r.lowbid ∧
    convOpt pyFloat arr 6 = .ok r.closebid ∧
    convOpt pyFloat arr 7 = .ok r.openask ∧
    convOpt pyFloat arr 8 = .ok r.highask ∧
    convOpt pyFloat arr 9 = .ok r.lowask ∧
    convOpt pyFloat arr 10 = .ok r.closeask ∧
    convOpt pyInt arr 11 = .ok r.totalticks ∧
    r.symbol = (if h0 : 0 < arr.length then some (pyStr (arr.get ⟨0, h0⟩)) else none) ∧
    r.date = (if h1 : 1 < arr.length then dateCoerce (arr.get ⟨1, h1⟩) else none) := by
  unfold from_arrayGo at h
  iterate 10 (split at h <;> try exact Except.noConfusion h)
  injection h with h
  subst h
  and_intros <;> first | assumption | rfl

lemma from_arrayGo_error (arr : List Value) (e : String) (h : from_arrayGo arr = .error e) :
    ∃ i, ∃ hi : i < arr.length, 2 ≤ i ∧ i ≤ 11 ∧ arr.get ⟨i, hi⟩ ≠ .null ∧
      convFailsAt i (arr.get ⟨i, hi⟩) = true := by
  unfold from_arrayGo at h
  split at h
  next e2 heq =>
    exact errWitness 2 (by norm_num) (by norm_num) (fun v => by simp [convFailsAt]) heq
  next hour hq2 =>
  split at h
  next e2 heq =>
    exact errWitness 3 (by norm_num) (by norm_num) (fun v => by simp [convFailsAt]) heq
  next openbid hq3 =>
  split at h
  next e2 heq =>
    exact errWitness 4 (by norm_num) (by norm_num) (fun v => by simp [convFailsAt]) heq
  next highbid hq4 =>
  split at h
  next e2 heq =>
    exact errWitness 5 (by norm_num) (by norm_num) (fun v => by simp [convFailsAt]) heq
  next lowbid hq5 =>
  split at h
  next e2 heq =>
    exact errWitness 6 (by norm_num) (by norm_num) (fun v => by simp [convFailsAt]) heq
  next closebid hq6 =>
  split at h
  next e2 heq =>
    exact errWitness 7 (by norm_num) (by norm_num) (fun v => by simp [convFailsAt]) heq
  next openask hq7 =>
  split at h
  next e2 heq =>
    exact errWitness 8 (by norm_num) (by norm_num) (fun v => by simp [convFailsAt]) heq
  next highask hq8 =>
  split at h
  next e2 heq =>
    exact errWitness 9 (by norm_num) (by norm_num) (fun v => by simp [convFailsAt]) heq
  next lowask hq9 =>
  split at h
  next e2 heq =>
    exact errWitness 10 (by norm_num) (by norm_num) (fun v => by simp [convFailsAt]) heq
  next closeask hq10 =>
  split at h
  next e2 heq =>
    exact errWitness 11 (by norm_num) (by norm_num) (fun v => by simp [convFailsAt]) heq
  next totalticks hq11 =>
    exact Except.noConfusion h

lemma from_array_ok (arr : List Value) (r : Record) (h : from_array arr = .ok r) :
    from_arrayGo arr = .ok r := by
  unfold from_array at h
  split at h
  · next heq => injection h with h; rw [h] at heq; exact heq
  · exact Except.noConfusion h

lemma from_array_error (arr : List Value) (e : String) (h : from_array arr = .error e) :
    ∃ e2, from_arrayGo arr = .error e2 := by
  unfold from_array at h
  split at h
  · exact Except.noConfusion h
  · next e2 heq => exact ⟨e2, heq⟩

lemma convOpt_ok_absent {β : Type} {conv : Value → Except String β} {arr : List Value}
    {i : Nat} {x : Option β} (h : convOpt conv arr i = .ok x) (hlen : arr.length ≤ i) :
    x = none := by
  rw [convOpt_absent conv arr i hlen] at h
  exact (Except.ok.inj h).symm

lemma convOpt_ok_null {β : Type} {conv : Value → Except String β} {arr : List Value}
    {i : Nat} {x : Option β} (h : convOpt conv arr i = .ok x) (hi : i < arr.length)
    (hv : arr.get ⟨i, hi⟩ = .null) : x = none := by
  rw [convOpt_null conv arr i hi hv] at h
  exact (Except.ok.inj h).symm

lemma load_fold_rows (fs : String → Option FileContent) (dir : String) :
    ∀ (listing : List String) (acc : Table),
      (listing.foldl (loadStep fs dir) acc).rows =
        acc.rows ++
          (((listing.filter (fun f => strEndsWith f ".json")).filterMap
              (fun f => (load_trades_from_file fs (dir ++ "/" ++ f)).toOption)).map
            Table.rows).flatten
  | [], acc => by simp
  | f :: rest, acc => by
    rw [List.foldl_cons, load_fold_rows fs dir rest (loadStep fs dir acc f)]
    by_cases hf : strEndsWith f ".json" = true
    · cases hl : load_trades_from_file fs (dir ++ "/" ++ f) with
      | ok df => simp [loadStep, hf, hl, concatTables, Except.toOption]
      | error e => simp [loadStep, hf, hl, Except.toOption]
    · simp [loadStep, hf]

lemma load_fold_id (fs : String → Option FileContent) (dir : String) :
    ∀ (listing : List String) (acc : Table),
      (∀ f ∈ listing, strEndsWith f ".json" = true →
        (load_trades_from_file fs (dir ++ "/" ++ f)).toOption = none) →
      listing.foldl (loadStep fs dir) acc = acc
  | [], acc, _ => rfl
  | f :: rest, acc, hfail => by
    rw [List.foldl_cons]
    have hstep : loadStep fs dir acc f = acc := by
      unfold loadStep
      by_cases hf : strEndsWith f ".json" = true
      · rw [if_pos hf]
        cases hl : load_trades_from_file fs (dir ++ "/" ++ f) with
        | ok df =>
          have := hfail f (by simp) hf
          rw [hl] at this
          exact Option.noConfusion this
        | error e => rfl
      · rw [if_neg hf]
    rw [hstep]
    exact load_fold_id fs dir rest acc (fun g hg => hfail g (by simp [hg]))

/-- C7: the Directory Aggregator processes only entries with the `.json`
suffix, skips (after logging) every file whose load raises while continuing
with the rest, and returns the concatenation of the successfully loaded
per-file tables, preserving per-file row order, appending files in
enumeration order, and keeping duplicates. -/
theorem C7_directory_aggregation (fs : String → Option FileContent) (dir : String)
    (listing : List String) :
    (load_all_trades fs dir listing).rows =
      (((listing.filter (fun f => strEndsWith f ".json")).filterMap
          (fun f => (load_trades_from_file fs (dir ++ "/" ++ f)).toOption)).map
        Table.rows).flatten := by
  unfold load_all_trades
  rw [load_fold_rows]
  rfl

/-- C8: the File Loader raises `FileNotFoundError` exactly when the path does
not exist; an existing path is read and parsed instead. -/
theorem C8_not_found_iff (fs : String → Option FileContent) (file_path : String) :
    isFileNotFound (load_trades_from_file fs file_path) = (fs file_path).isNone := by
  cases h : fs file_path with
  | none => simp [load_trades_from_file, h, isFileNotFound]
  | some c =>
    cases c with
    | invalidJson => simp [load_trades_from_file, h, isFileNotFound]
    | noDatatable => simp [load_trades_from_file, h, isFileNotFound]
    | datatable rows =>
      cases hm : mapFromArray rows with
      | error e => simp [load_trades_from_file, h, hm, isFileNotFound]
      | ok recs => simp [load_trades_from_file, h, hm, isFileNotFound]

/-- C9: handling a request leaves the process state, and with it the
in-memory trades table, unchanged: the request step returns the state it was
given, its only product being the response. -/
theorem C9_no_state_mutation (st : ServerState) (sds eds : String)
    (symbol api_key : Option String) :
    (get_trades_step st sds eds symbol api_key).1 = st := rfl

/-- C10: when no directory entry loads successfully, `load_all_trades`
returns the empty column-less table rather than an error, and every
authenticated well-formed query against that table has the filter raise a
`KeyError` on the missing date column, which escapes the handler. -/
theorem C10_empty_load_then_query_errors (fs : String → Option FileContent)
    (dir : String) (listing : List String)
    (hfail : ∀ f ∈ listing, strEndsWith f ".json" = true →
      (load_trades_from_file fs (dir ++ "/" ++ f)).toOption = none) :
    load_all_trades fs dir listing = ⟨[], []⟩ ∧
    ∀ sds eds symbol, (parseDate sds).isSome = true → (parseDate eds).isSome = true →
      get_trades (load_all_trades fs dir listing) sds eds symbol (some API_KEY) =
        .unhandled (.keyError "date") := by
  have hempty : load_all_trades fs dir listing = ⟨[], []⟩ :=
    load_fold_id fs dir listing ⟨[], []⟩ hfail
  refine ⟨hempty, ?_⟩
  intro sds eds symbol h1 h2
  obtain ⟨d1, hd1⟩ := Option.isSome_iff_exists.mp h1
  obtain ⟨d2, hd2⟩ := Option.isSome_iff_exists.mp h2
  rw [hempty]
  simp [get_trades, filter_trades, hd1, hd2, filterToResponse]

/-- Witness for C10 at a one-file directory whose only file is unparsable
JSON. -/
theorem C10_empty_load_then_query_errors_witness :
    get_trades (load_all_trades (fun _ => some .invalidJson) "/data" ["a.json"])
      "2023-06-01" "2023-06-02" none (some API_KEY) = .unhandled (.keyError "date") :=
  (C10_empty_load_then_query_errors (fun _ => some .invalidJson) "/data" ["a.json"]
    (by decide)).2 "2023-06-01" "2023-06-02" none (by decide) (by decide)

/-- C1: on a table carrying the date and symbol columns and on valid date
bounds, `filter_trades` returns exactly the filter of the table rows by the
specification predicate: date in the closed interval, symbol equality exactly
when a nonempty symbol is supplied, no extra records, no sorting or
deduplication, the relative order of the table kept. -/
theorem C1_filter_trades_exact (t : Table) (sds eds : String) (symbol : Option String)
    (sd ed : Date) (h1 : parseDate sds = some sd) (h2 : parseDate eds = some ed)
    (hd : "date" ∈ t.cols) (hs : "symbol" ∈ t.cols) :
    filter_trades t sds eds symbol =
      .ok ⟨t.cols, t.rows.filter (specFilterPred sd ed symbol)⟩ := by
  unfold filter_trades
  rw [h1, h2]
  cases symbol with
  | none =>
    simp only [if_pos hd, Except.ok.injEq, Table.mk.injEq, true_and]
    apply List.filter_congr
    intro r _
    simp [specFilterPred]
  | some s =>
    by_cases hemp : s = ""
    · simp only [if_pos hd, if_pos hemp, Except.ok.injEq, Table.mk.injEq, true_and]
      apply List.filter_congr
      intro r _
      simp [specFilterPred, hemp]
    · simp only [if_pos hd, if_neg hemp, if_pos hs, List.filter_filter,
        Except.ok.injEq, Table.mk.injEq, true_and]
      apply List.filter_congr
      intro r _
      simp [specFilterPred, hemp, Bool.and_comm]

/-- Witness for C1 on a concrete two-row table with a nonempty symbol. -/
theorem C1_filter_trades_exact_witness :
    filter_trades tNull "2023-01-01" "2023-12-31" (some "EURUSD") =
      .ok ⟨tNull.cols, tNull.rows.filter (specFilterPred ⟨2023, 1, 1⟩ ⟨2023, 12, 31⟩
        (some "EURUSD"))⟩ :=
  C1_filter_trades_exact tNull "2023-01-01" "2023-12-31" (some "EURUSD")
    ⟨2023, 1, 1⟩ ⟨2023, 12, 31⟩ (by decide) (by decide) (by decide) (by decide)

/-- C2 counterexample: a null at present index 0 is not treated as field
absent to null; `from_array` stringifies it, leaving the symbol equal to the
string None rather than null. -/
theorem C2_null_symbol_counterexample :
    from_array [Value.null] =
      .ok ⟨some "None", none, none, none, none, none, none, none, none, none,
        none, none⟩ ∧
    (some "None" : Option String) ≠ none :=
  ⟨rfl, by decide⟩

/-- C2 (amended): `from_array` treats fewer than 12 elements, or a null at a
present index from 1 on, as field absent to null; a null at index 0 is
stringified to the string None instead of null; it raises only when a present
non-null value at one of the typed indices 2 to 11 fails its type conversion;
and the seven-element example row parses with openask through totalticks
null. -/
theorem C2_lenient_parser_amended :
    (∀ arr r, from_array arr = .ok r →
      (∀ i, i ≤ 11 → arr.length ≤ i → fieldNone r i = true) ∧
      (∀ i, ∀ hi : i < arr.length, 1 ≤ i → i ≤ 11 → arr.get ⟨i, hi⟩ = .null →
        fieldNone r i = true) ∧
      (∀ h0 : 0 < arr.length, arr.get ⟨0, h0⟩ = .null → r.symbol = some "None")) ∧
    (∀ arr e, from_array arr = .error e →
      ∃ i, ∃ hi : i < arr.length, 2 ≤ i ∧ i ≤ 11 ∧ arr.get ⟨i, hi⟩ ≠ .null ∧
        convFailsAt i (arr.get ⟨i, hi⟩) = true) ∧
    from_array row7 = .ok rec7 := by
  refine ⟨?_, ?_, rfl⟩
  · intro arr r h
    have hgo := from_array_ok arr r h
    obtain ⟨m2, m3, m4, m5, m6, m7, m8, m9, m10, m11, msym, mdate⟩ :=
      from_arrayGo_ok arr r hgo
    refine ⟨?_, ?_, ?_⟩
    · intro i hi11 hlen
      interval_cases i
      · show r.symbol.isNone = true
        rw [msym, dif_neg (by omega)]
        rfl
      · show r.date.isNone = true
        rw [mdate, dif_neg (by omega)]
        rfl
      · show r.hour.isNone = true
        rw [convOpt_ok_absent m2 (by omega)]
        rfl
      · show r.openbid.isNone = true
        rw [convOpt_ok_absent m3 (by omega)]
        rfl
      · show r.highbid.isNone = true
        rw [convOpt_ok_absent m4 (by omega)]
        rfl
      · show r.lowbid.isNone = true
        rw [convOpt_ok_absent m5 (by omega)]
        rfl
      · show r.closebid.isNone = true
        rw [convOpt_ok_absent m6 (by omega)]
        rfl
      · show r.openask.isNone = true
        rw [convOpt_ok_absent m7 (by omega)]
        rfl
      · show r.highask.isNone = true
        rw [convOpt_ok_absent m8 (by omega)]
        rfl
      · show r.lowask.isNone = true
        rw [convOpt_ok_absent m9 (by omega)]
        rfl
      · show r.closeask.isNone = true
        rw [convOpt_ok_absent m10 (by omega)]
        rfl
      · show r.totalticks.isNone = true
        rw [convOpt_ok_absent m11 (by omega)]
        rfl
    · intro i hi hi1 hi11 hv
      interval_cases i
      · show r.date.isNone = true
        rw [mdate, dif_pos hi]
        have hv2 : arr[1] = Value.null := hv
        simp [dateCoerce, hv2]
      · show r.hour.isNone = true
        rw [convOpt_ok_null m2 hi hv]
        rfl
      · show r.openbid.isNone = true
        rw [convOpt_ok_null m3 hi hv]
        rfl
      · show r.highbid.isNone = true
        rw [convOpt_ok_null m4 hi hv]
        rfl
      · show r.lowbid.isNone = true
        rw [convOpt_ok_null m5 hi hv]
        rfl
      · show r.closebid.isNone = true
        rw [convOpt_ok_null m6 hi hv]
        rfl
      · show r.openask.isNone = true
        rw [convOpt_ok_null m7 hi hv]
        rfl
      · show r.highask.isNone = true
        rw [convOpt_ok_null m8 hi hv]
        rfl
      · show r.lowask.isNone = true
        rw [convOpt_ok_null m9 hi hv]
        rfl
      · show r.closeask.isNone = true
        rw [convOpt_ok_null m10 hi hv]
        rfl
      · show r.totalticks.isNone = true
        rw [convOpt_ok_null m11 hi hv]
        rfl
    · intro h0 hv
      rw [msym, dif_pos h0]
      have hv2 : arr[0] = Value.null := hv
      simp [pyStr, hv2]
  · intro arr e h
    obtain ⟨e2, hgo⟩ := from_array_error arr e h
    exact from_arrayGo_error arr e2 hgo

/-- Witness for C2 on the seven-element example row: openask, field 7, is
null. -/
theorem C2_lenient_parser_amended_witness : fieldNone rec7 7 = true :=
  (C2_lenient_parser_amended.1 row7 rec7 C2_lenient_parser_amended.2.2).1 7
    (by decide) (by decide)

/-- C3: the handler checks the API key first, failing with 403 on any
mismatch or absence whatever the other parameters; then it validates both
date parameters against YYYY-MM-DD, failing with 400 and the format message;
only with both checks passed does the Query Filter run, determining the
response. -/
theorem C3_handler_validation_order (t : Table) (sds eds : String)
    (symbol api_key : Option String) :
    (api_key ≠ some API_KEY →
      get_trades t sds eds symbol api_key = .httpError 403 "Invalid API key") ∧
    (api_key = some API_KEY →
      ((parseDate sds).isNone = true ∨ (parseDate eds).isNone = true) →
      get_trades t sds eds symbol api_key =
        .httpError 400 "Invalid date format. Expected \x27YYYY-MM-DD\x27") ∧
    (api_key = some API_KEY → (parseDate sds).isSome = true →
      (parseDate eds).isSome = true →
      get_trades t sds eds symbol api_key =
        filterToResponse (filter_trades t sds eds symbol)) := by
  refine ⟨?_, ?_, ?_⟩
  · intro h
    simp [get_trades, h]
  · intro hk hdates
    subst hk
    rcases hdates with h | h
    · simp [get_trades, h]
    · simp [get_trades, h]
  · intro hk h1 h2
    subst hk
    obtain ⟨d1, hd1⟩ := Option.isSome_iff_exists.mp h1
    obtain ⟨d2, hd2⟩ := Option.isSome_iff_exists.mp h2
    simp [get_trades, hd1, hd2]

/-- Witness for C3 exercising all three branches on concrete inputs. -/
theorem C3_handler_validation_order_witness :
    get_trades ⟨[], []⟩ "2023-06-01" "2023-06-02" none none =
      .httpError 403 "Invalid API key" ∧
    get_trades ⟨[], []⟩ "bad-date" "2023-06-02" none (some API_KEY) =
      .httpError 400 "Invalid date format. Expected \x27YYYY-MM-DD\x27" ∧
    get_trades ⟨[], []⟩ "2023-06-01" "2023-06-02" none (some API_KEY) =
      filterToResponse (filter_trades ⟨[], []⟩ "2023-06-01" "2023-06-02" none) :=
  ⟨(C3_handler_validation_order ⟨[], []⟩ "2023-06-01" "2023-06-02" none none).1
      (by decide),
   (C3_handler_validation_order ⟨[], []⟩ "bad-date" "2023-06-02" none
      (some API_KEY)).2.1 rfl (Or.inl (by decide)),
   (C3_handler_validation_order ⟨[], []⟩ "2023-06-01" "2023-06-02" none
      (some API_KEY)).2.2 rfl (by decide) (by decide)⟩

/-- C4: a record whose date is null is never part of a successful
`filter_trades` result, whatever the table, bounds and symbol. -/
theorem C4_null_date_excluded (t : Table) (sds eds : String) (symbol : Option String)
    (res : Table) (h : filter_trades t sds eds symbol = .ok res)
    (r : Record) (hr : r ∈ res.rows) : r.date ≠ none := by
  intro hnone
  unfold filter_trades at h
  repeat' split at h
  all_goals first
  | exact Except.noConfusion h
  | (injection h with h; subst h; simp [List.mem_filter, hnone] at hr)

/-- Witness for C4: the dated record surviving a concrete filter has a
non-null date. -/
theorem C4_null_date_excluded_witness : recJun.date ≠ none :=
  C4_null_date_excluded tNull "2023-01-01" "2023-12-31" none
    ⟨tradeColumns, [recJun]⟩ (by rfl) recJun (by simp)

/-- C5: with at least two elements and a value at index 1 that the coercing
date parse rejects, `from_array` sets the date field to null on success, and
any raise it performs is attributable to a typed field at an index from 2 on,
never to the malformed date. -/
theorem C5_malformed_date_to_null (arr : List Value) (hlt : 1 < arr.length)
    (hbad : dateCoerce (arr.get ⟨1, hlt⟩) = none) :
    (∀ r, from_array arr = .ok r → r.date = none) ∧
    (∀ e, from_array arr = .error e →
      ∃ i, ∃ hi : i < arr.length, 2 ≤ i ∧ arr.get ⟨i, hi⟩ ≠ .null ∧
        convFailsAt i (arr.get ⟨i, hi⟩) = true) := by
  constructor
  · intro r h
    have hgo := from_array_ok arr r h
    obtain ⟨-, -, -, -, -, -, -, -, -, -, -, mdate⟩ := from_arrayGo_ok arr r hgo
    rw [mdate, dif_pos hlt]
    exact hbad
  · intro e h
    obtain ⟨e2, hgo⟩ := from_array_error arr e h
    obtain ⟨i, hi, hge, -, hnn, hcf⟩ := from_arrayGo_error arr e2 hgo
    exact ⟨i, hi, hge, hnn, hcf⟩

/-- Witness for C5 on a row with a malformed date string. -/
theorem C5_malformed_date_to_null_witness :
    from_array [Value.str "EURUSD", Value.str "bad-date"] = .ok recBad ∧
    recBad.date = none :=
  ⟨rfl,
   (C5_malformed_date_to_null [Value.str "EURUSD", Value.str "bad-date"]
      (by decide) (by decide)).1 recBad rfl⟩

/-- C6 counterexample: with the correct key and valid dates over the empty
column-less table, the filter call raises, yet the handler returns no HTTP
500 response carrying an Error filtering trades detail: the handler has no
try block there and the exception escapes it uncaught. -/
theorem C6_no_500_counterexample :
    isErr (filter_trades ⟨[], []⟩ "2023-06-01" "2023-06-02" none) = true ∧
    get_trades ⟨[], []⟩ "2023-06-01" "2023-06-02" none (some API_KEY) =
      .unhandled (.keyError "date") ∧
    isHttp500 (get_trades ⟨[], []⟩ "2023-06-01" "2023-06-02" none (some API_KEY)) =
      false := by
  refine ⟨rfl, ?_, ?_⟩ <;> rfl

/-- C6 (amended): when the filter call fails after the key and date checks
pass, the handler does not catch it: the exception propagates out of the
handler unchanged, and no 500 response with the cause is built by the
handler itself. -/
theorem C6_filter_failure_propagates (t : Table) (sds eds : String)
    (symbol : Option String) (e : FilterError)
    (h1 : (parseDate sds).isSome = true) (h2 : (parseDate eds).isSome = true)
    (hf : filter_trades t sds eds symbol = .error e) :
    get_trades t sds eds symbol (some API_KEY) = .unhandled e ∧
    isHttp500 (get_trades t sds eds symbol (some API_KEY)) = false := by
  obtain ⟨d1, hd1⟩ := Option.isSome_iff_exists.mp h1
  obtain ⟨d2, hd2⟩ := Option.isSome_iff_exists.mp h2
  have hmain : get_trades t sds eds symbol (some API_KEY) = .unhandled e := by
    simp [get_trades, hd1, hd2, hf, filterToResponse]
  exact ⟨hmain, by rw [hmain]; rfl⟩

/-- Witness for C6 over the empty column-less table. -/
theorem C6_filter_failure_propagates_witness :
    get_trades ⟨[], []⟩ "2023-06-01" "2023-06-02" none (some API_KEY) =
      .unhandled (.keyError "date") :=
  (C6_filter_failure_propagates ⟨[], []⟩ "2023-06-01" "2023-06-02" none
    (.keyError "date") (by decide) (by decide) rfl).1

end TDS
